import Mathlib

/-!
Shallow embedding of `src/aiy/voice/audio.py` (AIY voice kit audio layer):
the `AudioFormat` data model, the `arecord`/`aplay` command builders, the
`Recorder.record` chunk loop and its cleanup trace, the `Player` variants,
and the top-level `play_raw` / `play_raw_async` helpers.

Bytes are modelled as `Nat`, byte strings as `List Nat`, an audio stream
(the capture subprocess's stdout) as a finite `List Nat`, and Python
exceptions as `Except PyError`.
-/

namespace Audio

/-- Python exceptions raised (or raisable) by the module: explicit
`ValueError`s from the command builders, plus the `NameError` /
`AttributeError` that the buggy helpers hit at runtime. -/
inductive PyError where
  | valueError (msg : String)
  | nameError (name : String)
  | attributeError (attr : String)
  deriving DecidableEq, Repr

/-- AudioFormat namedtuple: (sample_rate_hz, num_channels, bytes_per_sample). -/
structure AudioFormat where
  sample_rate_hz : Nat
  num_channels : Nat
  bytes_per_sample : Nat
  deriving DecidableEq, Repr

/-- Property bytes_per_second = sample_rate_hz * num_channels * bytes_per_sample. -/
def AudioFormat.bytes_per_second (f : AudioFormat) : Nat :=
  f.sample_rate_hz * f.num_channels * f.bytes_per_sample

/-- AudioFormat.CD = AudioFormat(44100, 2, 2). -/
def AudioFormat.CD : AudioFormat := ⟨44100, 2, 2⟩

/-- The three format-derived flags shared by both command builders:
channel count, sample format string ("s%d" % (8 * bytes_per_sample)),
and sample rate. -/
def formatFlags (f : AudioFormat) : List String :=
  ["-c", toString f.num_channels,
   "-f", "s" ++ toString (8 * f.bytes_per_sample),
   "-r", toString f.sample_rate_hz]

/-- Optional trailing positional filename (cmd.append(filename) when given). -/
def filenameArg : Option String → List String
  | some name => [name]
  | none => []

/-- Embedding of `arecord(fmt, filetype='raw', filename=None, device='default')`:
fails if fmt is None, fails if filetype is not wav/raw/voc/au, otherwise
builds the argument list. -/
def arecord (fmt : Option AudioFormat) (filetype : String)
    (filename : Option String) (device : String) :
    Except PyError (List String) :=
  match fmt with
  | none => .error (.valueError "Format must be specified.")
  | some f =>
    if filetype ∉ (["wav", "raw", "voc", "au"] : List String) then
      .error (.valueError "File type must be wav, raw, voc, or au.")
    else
      .ok (["arecord", "-q", "-t", filetype, "-D", device] ++ formatFlags f
            ++ filenameArg filename)

/-- Embedding of `aplay(fmt, filetype='raw', filename=None, device='default')`:
fails iff filetype is raw and fmt is None; format flags are appended only
when fmt is given. -/
def aplay (fmt : Option AudioFormat) (filetype : String)
    (filename : Option String) (device : String) :
    Except PyError (List String) :=
  if filetype = "raw" ∧ fmt = none then
    .error (.valueError "Format must be specified for raw data.")
  else
    .ok (["aplay", "-q", "-t", filetype, "-D", device]
          ++ (match fmt with | some f => formatFlags f | none => [])
          ++ filenameArg filename)

/-- Truth of an Except result, analogous to "did not raise". -/
def isOk {ε α : Type} : Except ε α → Bool
  | .ok _ => true
  | .error _ => false

/-! ### Recorder -/

/-- Recorder instance state: the two threading.Event flags (initially
unset) and the subprocess handle `self._process` (None before the first
record call; `some running` afterwards, where the Bool tracks whether
the child process is still running). -/
structure Recorder where
  doneFlag : Bool
  startedFlag : Bool
  process : Option Bool
  deriving DecidableEq, Repr

/-- Recorder.__init__: both events unset, no process yet. -/
def Recorder.init : Recorder := ⟨false, false, none⟩

/-- Recorder.done: sets the done event; touches nothing else (in
particular it does not stop the process). -/
def Recorder.done (r : Recorder) : Recorder := { r with doneFlag := true }

/-- chunk_size = int(chunk_duration_sec * fmt.bytes_per_second); the
duration is modelled as a non-negative rational, and Python int() on a
non-negative value truncates toward zero, i.e. floors. -/
def chunkSizeOf (chunk_duration_sec : ℚ) (fmt : AudioFormat) : Nat :=
  (chunk_duration_sec * (fmt.bytes_per_second : ℚ)).floor.toNat

/-- One read from the subprocess stdout: `stdout.read(n)` returns the next
n bytes of the stream, or fewer at end of stream (empty at EOF, and empty
immediately when n = 0). -/
def readChunk (chunkSize : Nat) (stream : List Nat) : List Nat :=
  stream.take chunkSize

/-- The body of Recorder.record's for-loop, fuelled. `doneAt i` is the
value of the done event observed by `self._done.is_set()` at iteration i
(the flag may be set concurrently by another thread calling done()).
Each iteration checks the flag, reads a chunk, breaks on an empty read,
and otherwise yields the chunk; the returned list is the list of yielded
chunks in order. The fuel is the number of remaining loop iterations. -/
def recordLoopAux (chunkSize : Nat) (doneAt : Nat → Bool) :
    Nat → Nat → List Nat → List (List Nat)
  | 0, _, _ => []
  | fuel + 1, i, stream =>
    if doneAt i = true then []
    else if (readChunk chunkSize stream).isEmpty then []
    else readChunk chunkSize stream
          :: recordLoopAux chunkSize doneAt fuel (i + 1) (stream.drop chunkSize)

/-- The iteration source `range(num_chunks) if num_chunks else
itertools.count()`. A Python num_chunks of None or 0 is falsy, selecting
the unbounded iterator. On the finite modelled stream the unbounded loop
always exits by the done check or the empty-read break within
stream.length + 1 iterations (each non-breaking iteration consumes at
least one byte), so it is embedded as the fuelled loop with that much
fuel; recordLoopAux_fuel_stable below proves the choice of fuel
immaterial beyond this bound. -/
def recordLoop (chunkSize : Nat) (doneAt : Nat → Bool)
    (num_chunks : Option Nat) (stream : List Nat) : List (List Nat) :=
  match num_chunks with
  | some n =>
    if n = 0 then recordLoopAux chunkSize doneAt (stream.length + 1) 0 stream
    else recordLoopAux chunkSize doneAt n 0 stream
  | none => recordLoopAux chunkSize doneAt (stream.length + 1) 0 stream

/-- Number of chunks until stream end: how many reads of chunkSize bytes a
stream of this length supports before a read comes back empty (zero when
chunkSize = 0, since read(0) returns empty bytes at once). -/
def chunksUntilEnd (chunkSize : Nat) (stream : List Nat) : Nat :=
  if chunkSize = 0 then 0 else (stream.length + chunkSize - 1) / chunkSize

/-- Externally observable events of one Recorder.record generator run, in
order. -/
inductive RecEvent where
  | spawn (cmd : List String)
  | started
  | onStart
  | writeFrames (data : List Nat)
  | yieldChunk (data : List Nat)
  | closeStream
  | onStop
  | closeFile
  deriving DecidableEq, Repr

/-- Events produced inside the loop for one list of yielded chunks: each
chunk is written to the wav file first (when a filename was given) and
then yielded. -/
def loopEvents (hasFile : Bool) (yields : List (List Nat)) : List RecEvent :=
  (yields.map (fun d =>
    (if hasFile then [RecEvent.writeFrames d] else []) ++ [RecEvent.yieldChunk d])).flatten

/-- Consumer behaviour: `none` drains the generator; `some k` closes it
(or throws into it) after consuming k chunks, which runs the finally
block at that point — the exception-unwinding exit path. -/
def consumed (yields : List (List Nat)) : Option Nat → List (List Nat)
  | none => yields
  | some k => yields.take k

/-- Full event trace of Recorder.record(fmt, chunk_duration_sec, device,
num_chunks, on_start?, on_stop?, filename?): spawn the arecord process
(filetype and filename defaulted), set started, call on_start if given,
run the loop, then the finally block: close stdout, call on_stop if
given, close the wav file if one was opened. `earlyClose` selects the
consumer's exit path as in `consumed`. -/
def recordTrace (fmt : AudioFormat) (chunk_duration_sec : ℚ) (device : String)
    (doneAt : Nat → Bool) (num_chunks : Option Nat) (stream : List Nat)
    (hasOnStart hasOnStop hasFile : Bool) (earlyClose : Option Nat) :
    List RecEvent :=
  let cmd := match arecord (some fmt) "raw" none device with
    | .ok c => c
    | .error _ => []
  let yields := recordLoop (chunkSizeOf chunk_duration_sec fmt) doneAt num_chunks stream
  [RecEvent.spawn cmd, RecEvent.started]
    ++ (if hasOnStart then [RecEvent.onStart] else [])
    ++ loopEvents hasFile (consumed yields earlyClose)
    ++ [RecEvent.closeStream]
    ++ (if hasOnStop then [RecEvent.onStop] else [])
    ++ (if hasFile then [RecEvent.closeFile] else [])

/-- Recorder.record's effect on the instance state: stores the process
handle and sets the started event; the done event is left untouched. -/
def Recorder.recordState (r : Recorder) : Recorder :=
  { r with startedFlag := true, process := some true }

/-! ### Player and its variants -/

/-- Player instance state: the started event and the process handle. -/
structure Player where
  startedFlag : Bool
  process : Option Bool
  deriving DecidableEq, Repr

/-- Player.__init__: started unset, no process. -/
def Player.init : Player := ⟨false, none⟩

/-- Player.popen(cmd): spawns the subprocess with the given argument list,
sets the started event, and returns the process handle (modelled as the
new state paired with the spawned command). -/
def Player.popen (p : Player) (cmd : List String) : Player × List String :=
  ({ p with startedFlag := true, process := some true }, cmd)

/-- One interaction with the playback subprocess stdin pipe. -/
inductive PushEvent where
  | write (data : List Nat)
  | closeStdin
  deriving DecidableEq, Repr

/-- The push closure returned by BytesPlayer.play: `if data:` writes the
chunk to process.stdin, else (empty bytes or None, both falsy) closes
stdin. The result is the list of pipe interactions of this one call. -/
def BytesPlayer.push : Option (List Nat) → List PushEvent
  | some (b :: bs) => [PushEvent.write (b :: bs)]
  | some [] => [PushEvent.closeStdin]
  | none => [PushEvent.closeStdin]

/-- BytesPlayer.play(fmt, device): builds the raw playback command and
spawns it with stdin piped; the returned closure is BytesPlayer.push. -/
def BytesPlayer.play (p : Player) (fmt : Option AudioFormat) (device : String) :
    Except PyError (Player × List String) :=
  match aplay fmt "raw" none device with
  | .error e => .error e
  | .ok cmd => .ok (Player.popen p cmd)

/-- The filename_or_bytes argument of the play helpers: a byte-like
object, a str path, or anything else. -/
inductive PySource where
  | byteData (data : List Nat)
  | path (s : String)
  | other
  deriving DecidableEq, Repr

/-- Result of spawning an asynchronous player: the command line, whether
stdin was redirected to a pipe, and the writes made to it before
returning. -/
structure SpawnResult where
  cmd : List String
  stdinPipe : Bool
  stdinWrites : List (List Nat)
  deriving DecidableEq, Repr

/-- Embedding of play_raw_async(fmt, filename_or_bytes). The bytes branch
spawns aplay with a piped stdin and writes the whole buffer. The str
branch as written passes `filename=filename` where `filename` is an
unbound name (the parameter is filename_or_bytes), so evaluating the
argument raises NameError before any aplay call or spawn. Any other
input raises ValueError. -/
def play_raw_async (fmt : Option AudioFormat) (filename_or_bytes : PySource) :
    Except PyError SpawnResult :=
  match filename_or_bytes with
  | .byteData data =>
    match aplay fmt "raw" none "default" with
    | .error e => .error e
    | .ok cmd => .ok ⟨cmd, true, [data]⟩
  | .path _ => .error (.nameError "filename")
  | .other => .error (.valueError "Must be filename or byte-like object")

/-- Embedding of play_raw(fmt, filename_or_bytes): the body calls
play_raw_async(fmt, filename) where `filename` is an unbound name, so
every call raises NameError regardless of the input. -/
def play_raw (fmt : Option AudioFormat) (filename_or_bytes : PySource) :
    Except PyError SpawnResult :=
  .error (.nameError "filename")

/-- Python-level values reaching the FilePlayer entry points, whose
missing self parameter shifts every argument by one position. -/
inductive PyVal where
  | fmtVal (f : AudioFormat)
  | strVal (s : String)
  | playerVal
  | noneVal
  deriving DecidableEq, Repr

/-- aplay applied to Python-level argument values, as it is reached from
the FilePlayer entry points: the raise check compares fmt with None, the
base command is assembled around whatever values were passed, and the
format-flag block starts by reading fmt.num_channels, which raises
AttributeError for a value (such as the shifted-in FilePlayer instance)
that is not an AudioFormat. -/
def aplayVal (fmt : PyVal) (filetype : String) (filename : PyVal)
    (device : PyVal) : Except PyError (List PyVal) :=
  if filetype = "raw" ∧ fmt = PyVal.noneVal then
    .error (.valueError "Format must be specified for raw data.")
  else
    match fmt with
    | .noneVal =>
      .ok ([PyVal.strVal "aplay", PyVal.strVal "-q", PyVal.strVal "-t",
            PyVal.strVal filetype, PyVal.strVal "-D", device]
            ++ (if filename = PyVal.noneVal then [] else [filename]))
    | .fmtVal f =>
      .ok ([PyVal.strVal "aplay", PyVal.strVal "-q", PyVal.strVal "-t",
            PyVal.strVal filetype, PyVal.strVal "-D", device,
            PyVal.strVal "-c", PyVal.strVal (toString f.num_channels),
            PyVal.strVal "-f",
            PyVal.strVal ("s" ++ toString (8 * f.bytes_per_sample)),
            PyVal.strVal "-r", PyVal.strVal (toString f.sample_rate_hz)]
            ++ (if filename = PyVal.noneVal then [] else [filename]))
    | _ => .error (.attributeError "num_channels")

/-- FilePlayer.play_raw as written: the def has no self parameter, so a
bound call player.play_raw(f, name) binds the instance to fmt, the format
to filename and the name to device. The body evaluates the aplay call on
those shifted values and then self.popen(...), where `self` is an unbound
name, so every call raises: AttributeError while the format flags are
read off the instance, or NameError at `self` if the command builds. -/
def FilePlayer.play_raw (fmt : PyVal) (filename : PyVal) (device : PyVal) :
    Except PyError Unit :=
  match aplayVal fmt "raw" filename device with
  | .error e => .error e
  | .ok _ => .error (.nameError "self")

/-- FilePlayer.play_wav as written: same missing self parameter; a bound
call player.play_wav(name) binds the instance to filename. The aplay call
completes (fmt is None and filetype wav), and then `self.popen` raises
NameError. -/
def FilePlayer.play_wav (filename : PyVal) (device : PyVal) :
    Except PyError Unit :=
  match aplayVal PyVal.noneVal "wav" filename device with
  | .error e => .error e
  | .ok _ => .error (.nameError "self")

end Audio

/-! ### Helper lemmas about the record loop -/

namespace Audio

/-- With zero fuel the loop yields nothing. -/
theorem recordLoopAux_zero (cs : Nat) (d : Nat → Bool) (i : Nat) (s : List Nat) :
    recordLoopAux cs d 0 i s = [] := rfl

/-- Unfolding: the done check fires, the loop breaks. -/
theorem recordLoopAux_succ_done {d : Nat → Bool} {i : Nat} (cs fuel : Nat)
    (s : List Nat) (hd : d i = true) :
    recordLoopAux cs d (fuel + 1) i s = [] := by
  simp [recordLoopAux, hd]

/-- Unfolding: the read comes back empty, the loop breaks. -/
theorem recordLoopAux_succ_empty {d : Nat → Bool} {i cs : Nat} {s : List Nat}
    (fuel : Nat) (hd : ¬d i = true) (he : (readChunk cs s).isEmpty = true) :
    recordLoopAux cs d (fuel + 1) i s = [] := by
  simp [recordLoopAux, hd, he]

/-- Unfolding: a full iteration yields the read chunk and continues on the
rest of the stream. -/
theorem recordLoopAux_succ_cons {d : Nat → Bool} {i cs : Nat} {s : List Nat}
    (fuel : Nat) (hd : ¬d i = true) (he : ¬(readChunk cs s).isEmpty = true) :
    recordLoopAux cs d (fuel + 1) i s
      = readChunk cs s :: recordLoopAux cs d fuel (i + 1) (s.drop cs) := by
  simp [recordLoopAux, hd, he]

/-- A nonempty read means a nonzero chunk size and a nonempty stream. -/
theorem take_ne_nil_facts {cs : Nat} {s : List Nat} (h : s.take cs ≠ []) :
    cs ≠ 0 ∧ s ≠ [] := by
  constructor
  · intro h0; exact h (by simp [h0])
  · intro h0; exact h (by simp [h0])

/-- An empty read supports no chunk at all. -/
theorem chunksUntilEnd_eq_zero {cs : Nat} {s : List Nat} (h : s.take cs = []) :
    chunksUntilEnd cs s = 0 := by
  by_cases hcs : cs = 0
  · simp [chunksUntilEnd, hcs]
  · have hs : s = [] := by
      cases s with
      | nil => rfl
      | cons a l =>
        cases cs with
        | zero => exact absurd rfl hcs
        | succ n => simp at h
    subst hs
    simp only [chunksUntilEnd, if_neg hcs, List.length_nil]
    exact Nat.div_eq_of_lt (by omega)

/-- Recurrence for chunksUntilEnd: a nonempty stream and positive chunk
size support one chunk plus whatever the remainder supports. -/
theorem chunksUntilEnd_drop (cs : Nat) (s : List Nat) (hcs : 0 < cs)
    (hs : s ≠ []) :
    chunksUntilEnd cs s = chunksUntilEnd cs (s.drop cs) + 1 := by
  have hlen : 0 < s.length := List.length_pos.mpr hs
  simp only [chunksUntilEnd, if_neg (Nat.pos_iff_ne_zero.mp hcs), List.length_drop]
  rcases le_or_lt s.length cs with hle | hgt
  · have h0 : s.length - cs = 0 := by omega
    rw [h0]
    have h1 : (0 + cs - 1) / cs = 0 := Nat.div_eq_of_lt (by omega)
    rw [h1]
    have hge : 1 ≤ (s.length + cs - 1) / cs := (Nat.one_le_div_iff hcs).mpr (by omega)
    have hlt : (s.length + cs - 1) / cs < 2 := (Nat.div_lt_iff_lt_mul hcs).mpr (by omega)
    omega
  · have heq : s.length + cs - 1 = (s.length - cs + cs - 1) + cs := by omega
    rw [heq, Nat.add_div_right _ hcs]

/-- The number of chunks a stream supports never exceeds its length + 1. -/
theorem chunksUntilEnd_le (cs : Nat) (s : List Nat) :
    chunksUntilEnd cs s ≤ s.length + 1 := by
  unfold chunksUntilEnd
  by_cases hcs : cs = 0
  · simp [hcs]
  · rw [if_neg hcs]
    have hpos : 0 < cs := Nat.pos_of_ne_zero hcs
    rw [Nat.div_le_iff_le_mul_add_pred hpos]
    have h1 : s.length ≤ s.length * cs := Nat.le_mul_of_pos_right _ hpos
    have h2 : cs * (s.length + 1) = s.length * cs + cs := by ring
    omega

/-- A nonempty run of the loop implies a nonzero chunk size and a nonempty
stream (the empty-read break fires otherwise). -/
theorem recordLoopAux_ne_nil {cs : Nat} {d : Nat → Bool} {fuel i : Nat}
    {s : List Nat} (h : recordLoopAux cs d fuel i s ≠ []) :
    cs ≠ 0 ∧ s ≠ [] := by
  match fuel with
  | 0 => exact absurd rfl h
  | m + 1 =>
    by_cases hd : d i = true
    · exact absurd (recordLoopAux_succ_done cs m s hd) h
    · by_cases he : (readChunk cs s).isEmpty
      · exact absurd (recordLoopAux_succ_empty m hd he) h
      · exact take_ne_nil_facts (fun (hnil : s.take cs = []) => he (by simp [readChunk, hnil]))

/-- The fuel bound is immaterial beyond the stream length: any two fuels
strictly larger than the stream length give the same yields, so the
unbounded iterator is faithfully represented by fuel stream.length + 1. -/
theorem recordLoopAux_fuel_stable (cs : Nat) (d : Nat → Bool) :
    ∀ (fuel fuel' i : Nat) (s : List Nat),
      s.length < fuel → s.length < fuel' →
      recordLoopAux cs d fuel i s = recordLoopAux cs d fuel' i s := by
  intro fuel
  induction fuel with
  | zero => intro fuel' i s h _; exact absurd h (by omega)
  | succ m ih =>
    intro fuel' i s h h'
    match fuel' with
    | 0 => exact absurd h' (by omega)
    | m' + 1 =>
      by_cases hd : d i = true
      · rw [recordLoopAux_succ_done cs m s hd, recordLoopAux_succ_done cs m' s hd]
      · by_cases he : (readChunk cs s).isEmpty
        · rw [recordLoopAux_succ_empty m hd he, recordLoopAux_succ_empty m' hd he]
        · rw [recordLoopAux_succ_cons m hd he, recordLoopAux_succ_cons m' hd he]
          have hfacts := take_ne_nil_facts (fun (hnil : s.take cs = []) => he (by simp [readChunk, hnil]))
          have hlen : 0 < s.length := List.length_pos.mpr hfacts.2
          have hcs : 0 < cs := Nat.pos_of_ne_zero hfacts.1
          congr 1
          apply ih
          · rw [List.length_drop]; omega
          · rw [List.length_drop]; omega

/-- Length of the loop's yield list when the done flag is never set:
min of the fuel and the number of chunks the stream supports. -/
theorem recordLoopAux_length_false (cs : Nat) :
    ∀ (fuel i : Nat) (s : List Nat),
      (recordLoopAux cs (fun _ => false) fuel i s).length
        = min fuel (chunksUntilEnd cs s) := by
  intro fuel
  induction fuel with
  | zero => intro i s; simp [recordLoopAux_zero]
  | succ m ih =>
    intro i s
    have hd : ¬(fun _ : Nat => false) i = true := by simp
    by_cases he : (readChunk cs s).isEmpty
    · have hcue : chunksUntilEnd cs s = 0 :=
        chunksUntilEnd_eq_zero (by simpa [readChunk, List.isEmpty_iff] using he)
      rw [recordLoopAux_succ_empty m hd he, hcue]
      simp
    · have hfacts := take_ne_nil_facts (fun (hnil : s.take cs = []) => he (by simp [readChunk, hnil]))
      have hcs : 0 < cs := Nat.pos_of_ne_zero hfacts.1
      rw [recordLoopAux_succ_cons m hd he, List.length_cons, ih (i + 1) (s.drop cs),
          chunksUntilEnd_drop cs s hcs hfacts.2]
      omega

/-- Every yielded chunk has at most chunkSize bytes (it is a read of at
most that many bytes). -/
theorem recordLoopAux_mem_le (cs : Nat) (d : Nat → Bool) :
    ∀ (fuel i : Nat) (s : List Nat) (c : List Nat),
      c ∈ recordLoopAux cs d fuel i s → c.length ≤ cs := by
  intro fuel
  induction fuel with
  | zero => intro i s c h; rw [recordLoopAux_zero] at h; simp at h
  | succ m ih =>
    intro i s c h
    by_cases hd : d i = true
    · rw [recordLoopAux_succ_done cs m s hd] at h; simp at h
    · by_cases he : (readChunk cs s).isEmpty
      · rw [recordLoopAux_succ_empty m hd he] at h; simp at h
      · rw [recordLoopAux_succ_cons m hd he, List.mem_cons] at h
        rcases h with h | h
        · subst h
          simp only [readChunk, List.length_take]
          omega
        · exact ih (i + 1) (s.drop cs) c h

/-- Every yielded chunk other than the last is full: exactly chunkSize
bytes. -/
theorem recordLoopAux_getD_full (cs : Nat) (d : Nat → Bool) :
    ∀ (fuel i : Nat) (s : List Nat) (j : Nat),
      j + 1 < (recordLoopAux cs d fuel i s).length →
      ((recordLoopAux cs d fuel i s).getD j []).length = cs := by
  intro fuel
  induction fuel with
  | zero => intro i s j h; rw [recordLoopAux_zero] at h; simp at h
  | succ m ih =>
    intro i s j h
    by_cases hd : d i = true
    · rw [recordLoopAux_succ_done cs m s hd] at h; simp at h
    · by_cases he : (readChunk cs s).isEmpty
      · rw [recordLoopAux_succ_empty m hd he] at h; simp at h
      · rw [recordLoopAux_succ_cons m hd he] at h ⊢
        match j with
        | 0 =>
          simp only [List.getD_cons_zero]
          simp only [List.length_cons] at h
          have hrest : recordLoopAux cs d m (i + 1) (s.drop cs) ≠ [] := by
            intro hnil
            rw [hnil] at h
            simp at h
          have hdrop := (recordLoopAux_ne_nil hrest).2
          have hlt : cs < s.length := by
            by_contra hge
            push_neg at hge
            exact hdrop (List.drop_eq_nil_of_le hge)
          simp only [readChunk, List.length_take]
          omega
        | j' + 1 =>
          simp only [List.getD_cons_succ]
          simp only [List.length_cons] at h
          exact ih (i + 1) (s.drop cs) j' (by omega)

/-- Once the sticky done flag is observed true at some iteration index n,
the loop (started at index i) yields at most n - i chunks: the flag is
checked before each read. -/
theorem recordLoopAux_done_le (cs : Nat) (d : Nat → Bool)
    (hmono : ∀ j k, j ≤ k → d j = true → d k = true) :
    ∀ (fuel i : Nat) (s : List Nat) (n : Nat), d n = true →
      (recordLoopAux cs d fuel i s).length ≤ n - i := by
  intro fuel
  induction fuel with
  | zero => intro i s n _; rw [recordLoopAux_zero]; simp
  | succ m ih =>
    intro i s n hn
    by_cases hd : d i = true
    · rw [recordLoopAux_succ_done cs m s hd]; simp
    · by_cases he : (readChunk cs s).isEmpty
      · rw [recordLoopAux_succ_empty m hd he]; simp
      · rw [recordLoopAux_succ_cons m hd he, List.length_cons]
        have hin : i < n := by
          by_contra hle
          push_neg at hle
          exact hd (hmono n i hle hn)
        have := ih (i + 1) (s.drop cs) n hn
        omega

/-- With the done flag constantly set, the loop yields nothing at all. -/
theorem recordLoopAux_const_true (cs : Nat) (fuel i : Nat) (s : List Nat) :
    recordLoopAux cs (fun _ => true) fuel i s = [] := by
  cases fuel with
  | zero => rfl
  | succ m => exact recordLoopAux_succ_done cs m s rfl

/-- With the done flag constantly set, recordLoop yields nothing for every
num_chunks value. -/
theorem recordLoop_const_true (cs : Nat) (nc : Option Nat) (s : List Nat) :
    recordLoop cs (fun _ => true) nc s = [] := by
  match nc with
  | none => exact recordLoopAux_const_true cs (s.length + 1) 0 s
  | some n =>
    show (if n = 0 then recordLoopAux cs (fun _ => true) (s.length + 1) 0 s
          else recordLoopAux cs (fun _ => true) n 0 s) = []
    by_cases hn : n = 0
    · rw [if_pos hn]; exact recordLoopAux_const_true cs (s.length + 1) 0 s
    · rw [if_neg hn]; exact recordLoopAux_const_true cs n 0 s

/-- recordLoop in terms of the fuelled loop: a positive num_chunks is the
fuel, while None and 0 (both falsy) get the stream-exhausting fuel. -/
theorem recordLoop_eq_aux (cs : Nat) (d : Nat → Bool) (nc : Option Nat)
    (s : List Nat) :
    recordLoop cs d nc s
      = recordLoopAux cs d
          (match nc with
            | some n => if n = 0 then s.length + 1 else n
            | none => s.length + 1) 0 s := by
  match nc with
  | none => rfl
  | some n =>
    show (if n = 0 then recordLoopAux cs d (s.length + 1) 0 s
          else recordLoopAux cs d n 0 s)
        = recordLoopAux cs d (if n = 0 then s.length + 1 else n) 0 s
    by_cases hn : n = 0 <;> simp [hn]

/-- Events emitted inside the loop are only frame writes and yields, so
any other event occurs zero times there. -/
theorem loopEvents_count_eq_zero (hf : Bool) (e : RecEvent)
    (h1 : ∀ dt, e ≠ RecEvent.writeFrames dt)
    (h2 : ∀ dt, e ≠ RecEvent.yieldChunk dt) :
    ∀ ys : List (List Nat), (loopEvents hf ys).count e = 0 := by
  intro ys
  induction ys with
  | nil => rfl
  | cons y ys ih =>
    have hstep : loopEvents hf (y :: ys)
        = ((if hf then [RecEvent.writeFrames y] else [])
            ++ [RecEvent.yieldChunk y]) ++ loopEvents hf ys := by
      simp [loopEvents]
    rw [hstep, List.count_append, List.count_append, ih]
    cases hf
    · simp [List.count_cons, Ne.symm (h2 y)]
    · simp [List.count_cons, Ne.symm (h1 y), Ne.symm (h2 y)]

end Audio

/-! ### Claim theorems: data model and command builders -/

/-- C9: for every AudioFormat(sr, ch, bps), the derived bytes_per_second
equals sr * ch * bps exactly, in integer arithmetic. -/
theorem AudioFormat_bytes_per_second_eq (sr ch bps : Nat) :
    (Audio.AudioFormat.mk sr ch bps).bytes_per_second = sr * ch * bps := rfl

/-- C4: aplay fails with a ValueError (InvalidArgument) iff filetype is
"raw" and fmt is absent; with fmt absent and any other filetype it succeeds
and the produced list omits all format-derived flags; those flags appear
exactly when fmt is provided. -/
theorem aplay_spec (fmt : Option Audio.AudioFormat) (filetype : String)
    (filename : Option String) (device : String) :
    (Audio.isOk (Audio.aplay fmt filetype filename device) = false ↔
      (filetype = "raw" ∧ fmt = none))
    ∧ (fmt = none → filetype ≠ "raw" →
        Audio.aplay fmt filetype filename device =
          .ok (["aplay", "-q", "-t", filetype, "-D", device]
                ++ Audio.filenameArg filename))
    ∧ (∀ f, fmt = some f →
        Audio.aplay fmt filetype filename device =
          .ok (["aplay", "-q", "-t", filetype, "-D", device]
                ++ Audio.formatFlags f ++ Audio.filenameArg filename)) := by
  refine ⟨?_, ?_, ?_⟩
  · unfold Audio.aplay
    by_cases h : filetype = "raw" ∧ fmt = none
    · simp [h, Audio.isOk]
    · simp [if_neg h, Audio.isOk, h]
  · intro hfmt hft
    unfold Audio.aplay
    rw [if_neg (by simp [hft])]
    simp [hfmt]
  · intro f hf
    unfold Audio.aplay
    rw [if_neg (by simp [hf])]
    simp [hf]

/-- C4 witness: aplay with fmt absent and filetype "wav" succeeds, omitting
format flags. -/
theorem aplay_spec_witness :
    Audio.aplay none "wav" (some "x.wav") "default" =
      .ok (["aplay", "-q", "-t", "wav", "-D", "default"]
            ++ Audio.filenameArg (some "x.wav")) :=
  (aplay_spec none "wav" (some "x.wav") "default").2.1 rfl (by decide)

/-- C5: arecord fails with a ValueError if fmt is absent, fails for every
filetype outside wav/raw/voc/au, and otherwise returns the argument list
quiet flag, file type, device, channels, bit depth 8 * bytes_per_sample
(signed PCM), sample rate, then the filename exactly when given. -/
theorem arecord_spec (fmt : Option Audio.AudioFormat) (filetype : String)
    (filename : Option String) (device : String) :
    (fmt = none →
      Audio.arecord fmt filetype filename device =
        .error (.valueError "Format must be specified."))
    ∧ (filetype ∉ (["wav", "raw", "voc", "au"] : List String) →
        Audio.isOk (Audio.arecord fmt filetype filename device) = false)
    ∧ (∀ f, fmt = some f →
        filetype ∈ (["wav", "raw", "voc", "au"] : List String) →
        Audio.arecord fmt filetype filename device =
          .ok (["arecord", "-q", "-t", filetype, "-D", device,
                "-c", toString f.num_channels,
                "-f", "s" ++ toString (8 * f.bytes_per_sample),
                "-r", toString f.sample_rate_hz]
                ++ Audio.filenameArg filename)) := by
  refine ⟨?_, ?_, ?_⟩
  · intro h; subst h; rfl
  · intro h
    match fmt with
    | none => rfl
    | some f =>
      simp only [Audio.arecord]
      rw [if_pos h]
      rfl
  · intro f hf hft
    subst hf
    simp only [Audio.arecord]
    rw [if_neg (by simp only [List.mem_cons, List.mem_singleton] at hft; simp; tauto)]
    simp [Audio.formatFlags]

/-- C5 witness: arecord with the CD format, filetype "wav", a filename and
the default device produces exactly the documented argument list. -/
theorem arecord_spec_witness :
    Audio.arecord (some Audio.AudioFormat.CD) "wav" (some "out.wav") "default" =
      .ok (["arecord", "-q", "-t", "wav", "-D", "default",
            "-c", "2", "-f", "s16", "-r", "44100"]
            ++ Audio.filenameArg (some "out.wav")) :=
  (arecord_spec (some Audio.AudioFormat.CD) "wav" (some "out.wav") "default").2.2
    Audio.AudioFormat.CD rfl (by decide)

/-! ### Claim theorems: the Recorder loop -/

open Audio

/-- C1 counterexample: the claim quantifies over all non-negative
num_chunks values and asserts num_chunks loop iterations; but 0 is falsy
in Python, so `range(num_chunks) if num_chunks else itertools.count()`
selects the unbounded iterator — on a 4-byte stream with 2-byte chunks and
num_chunks = 0 the loop yields 2 chunks, not 0. -/
theorem recordLoop_zero_num_chunks_counterexample :
    (recordLoop 2 (fun _ => false) (some 0) [1, 2, 3, 4]).length = 2
    ∧ ¬((recordLoop 2 (fun _ => false) (some 0) [1, 2, 3, 4]).length = 0) := by
  constructor <;> decide

/-- C1 (amended): for every positive num_chunks N, record yields exactly
min(N, chunks-until-stream-end) chunks of size chunk_size =
int(chunk_duration_sec * bytes_per_second), except that the last chunk
may be shorter at end of stream; num_chunks = 0, being falsy, behaves
exactly like num_chunks absent, and with num_chunks absent the loop runs
until the stream ends, yielding every available chunk. -/
theorem recordLoop_yields_spec (fmt : AudioFormat) (dur : ℚ) (s : List Nat)
    (N : Nat) (hN : 0 < N) :
    ((recordLoop (chunkSizeOf dur fmt) (fun _ => false) (some N) s).length
        = min N (chunksUntilEnd (chunkSizeOf dur fmt) s))
    ∧ (∀ c ∈ recordLoop (chunkSizeOf dur fmt) (fun _ => false) (some N) s,
        c.length ≤ chunkSizeOf dur fmt)
    ∧ (∀ j, j + 1 < (recordLoop (chunkSizeOf dur fmt) (fun _ => false) (some N) s).length →
        ((recordLoop (chunkSizeOf dur fmt) (fun _ => false) (some N) s).getD j []).length
          = chunkSizeOf dur fmt)
    ∧ recordLoop (chunkSizeOf dur fmt) (fun _ => false) (some 0) s
        = recordLoop (chunkSizeOf dur fmt) (fun _ => false) none s
    ∧ ((recordLoop (chunkSizeOf dur fmt) (fun _ => false) none s).length
        = chunksUntilEnd (chunkSizeOf dur fmt) s) := by
  have hN' : ¬(N = 0) := by omega
  have hsome : recordLoop (chunkSizeOf dur fmt) (fun _ => false) (some N) s
      = recordLoopAux (chunkSizeOf dur fmt) (fun _ => false) N 0 s := by
    rw [recordLoop_eq_aux]
    simp [hN']
  have hnone : recordLoop (chunkSizeOf dur fmt) (fun _ => false) none s
      = recordLoopAux (chunkSizeOf dur fmt) (fun _ => false) (s.length + 1) 0 s := rfl
  refine ⟨?_, ?_, ?_, ?_, ?_⟩
  · rw [hsome, recordLoopAux_length_false]
  · intro c hc
    rw [hsome] at hc
    exact recordLoopAux_mem_le (chunkSizeOf dur fmt) (fun _ => false) N 0 s c hc
  · intro j hj
    rw [hsome] at hj ⊢
    exact recordLoopAux_getD_full (chunkSizeOf dur fmt) (fun _ => false) N 0 s j hj
  · rfl
  · rw [hnone, recordLoopAux_length_false]
    exact min_eq_right (chunksUntilEnd_le (chunkSizeOf dur fmt) s)

/-- C1 witness: at format (1, 1, 2), duration 1 s (chunk_size 2), a 3-byte
stream and num_chunks 5, the record loop yields min(5, 2) = 2 chunks. -/
theorem recordLoop_yields_spec_witness :
    0 < 5
    ∧ (((recordLoop (chunkSizeOf 1 ⟨1, 1, 2⟩) (fun _ => false) (some 5) [7, 7, 7]).length
        = min 5 (chunksUntilEnd (chunkSizeOf 1 ⟨1, 1, 2⟩) [7, 7, 7]))
      ∧ (∀ c ∈ recordLoop (chunkSizeOf 1 ⟨1, 1, 2⟩) (fun _ => false) (some 5) [7, 7, 7],
          c.length ≤ chunkSizeOf 1 ⟨1, 1, 2⟩)
      ∧ (∀ j, j + 1 < (recordLoop (chunkSizeOf 1 ⟨1, 1, 2⟩) (fun _ => false) (some 5) [7, 7, 7]).length →
          ((recordLoop (chunkSizeOf 1 ⟨1, 1, 2⟩) (fun _ => false) (some 5) [7, 7, 7]).getD j []).length
            = chunkSizeOf 1 ⟨1, 1, 2⟩)
      ∧ recordLoop (chunkSizeOf 1 ⟨1, 1, 2⟩) (fun _ => false) (some 0) [7, 7, 7]
          = recordLoop (chunkSizeOf 1 ⟨1, 1, 2⟩) (fun _ => false) none [7, 7, 7]
      ∧ ((recordLoop (chunkSizeOf 1 ⟨1, 1, 2⟩) (fun _ => false) none [7, 7, 7]).length
          = chunksUntilEnd (chunkSizeOf 1 ⟨1, 1, 2⟩) [7, 7, 7])) :=
  ⟨by decide, recordLoop_yields_spec ⟨1, 1, 2⟩ 1 [7, 7, 7] 5 (by decide)⟩

/-- C2: on every exit path of the record loop — normal completion, early
stop via the done flag or a zero-byte read, or the consumer closing the
generator after any number of chunks (exception unwinding) — the finally
block runs exactly once: the stdout stream is closed exactly once,
on_stop runs exactly once iff it was provided, and the output file is
closed exactly once iff a filename was given. -/
theorem recordTrace_cleanup (fmt : AudioFormat) (dur : ℚ) (device : String)
    (doneAt : Nat → Bool) (nc : Option Nat) (s : List Nat)
    (hasOnStart hasOnStop hasFile : Bool) (earlyClose : Option Nat) :
    ((recordTrace fmt dur device doneAt nc s hasOnStart hasOnStop hasFile
        earlyClose).count RecEvent.closeStream = 1)
    ∧ ((recordTrace fmt dur device doneAt nc s hasOnStart hasOnStop hasFile
        earlyClose).count RecEvent.onStop = if hasOnStop then 1 else 0)
    ∧ ((recordTrace fmt dur device doneAt nc s hasOnStart hasOnStop hasFile
        earlyClose).count RecEvent.closeFile = if hasFile then 1 else 0) := by
  have hclose := loopEvents_count_eq_zero hasFile RecEvent.closeStream
    (fun dt h => RecEvent.noConfusion h) (fun dt h => RecEvent.noConfusion h)
    (consumed (recordLoop (chunkSizeOf dur fmt) doneAt nc s) earlyClose)
  have hstop := loopEvents_count_eq_zero hasFile RecEvent.onStop
    (fun dt h => RecEvent.noConfusion h) (fun dt h => RecEvent.noConfusion h)
    (consumed (recordLoop (chunkSizeOf dur fmt) doneAt nc s) earlyClose)
  have hfile := loopEvents_count_eq_zero hasFile RecEvent.closeFile
    (fun dt h => RecEvent.noConfusion h) (fun dt h => RecEvent.noConfusion h)
    (consumed (recordLoop (chunkSizeOf dur fmt) doneAt nc s) earlyClose)
  refine ⟨?_, ?_, ?_⟩ <;>
    cases hasOnStart <;> cases hasOnStop <;> cases hasFile <;>
      simp_all [recordTrace, List.count_append, List.count_cons]

/-- C3: done() is idempotent, does not stop the process or touch the
started event, and once the sticky done flag has been set by the time the
loop checks it at iteration n, the chunk sequence yields at most n chunks
(the flag is checked before each read, so only reads already in flight
still yield). -/
theorem recorder_done_spec :
    (∀ r : Recorder, Recorder.done (Recorder.done r) = Recorder.done r)
    ∧ (∀ r : Recorder, (Recorder.done r).process = r.process
        ∧ (Recorder.done r).startedFlag = r.startedFlag)
    ∧ (∀ (cs : Nat) (d : Nat → Bool) (nc : Option Nat) (s : List Nat) (n : Nat),
        (∀ j k, j ≤ k → d j = true → d k = true) → d n = true →
        (recordLoop cs d nc s).length ≤ n) := by
  refine ⟨fun r => rfl, fun r => ⟨rfl, rfl⟩, ?_⟩
  intro cs d nc s n hmono hn
  rw [recordLoop_eq_aux]
  have := recordLoopAux_done_le cs d hmono
    (match nc with
      | some m => if m = 0 then s.length + 1 else m
      | none => s.length + 1) 0 s n hn
  omega

/-- C3 witness: with the done flag set from iteration 1 on, a 6-byte
stream at chunk size 2 yields at most 1 chunk. -/
theorem recorder_done_spec_witness :
    (recordLoop 2 (fun j => decide (1 ≤ j)) none [1, 2, 3, 4, 5, 6]).length ≤ 1 :=
  recorder_done_spec.2.2 2 (fun j => decide (1 ≤ j)) none [1, 2, 3, 4, 5, 6] 1
    (fun j k hjk hj => by
      simp only [decide_eq_true_eq] at hj ⊢
      omega)
    (by decide)

/-! ### Claim theorems: players and helpers -/

/-- C6: the push closure from BytesPlayer.play performs exactly one write
of exactly the given bytes for every non-empty chunk, exactly one close of
the subprocess stdin for an empty or absent chunk, and push(b"abc") then
push(b"") yields exactly one write of those three bytes followed by
exactly one close. -/
theorem bytesPlayer_push_spec :
    (∀ (b : Nat) (bs : List Nat),
      BytesPlayer.push (some (b :: bs)) = [PushEvent.write (b :: bs)])
    ∧ BytesPlayer.push (some []) = [PushEvent.closeStdin]
    ∧ BytesPlayer.push none = [PushEvent.closeStdin]
    ∧ BytesPlayer.push (some [97, 98, 99]) ++ BytesPlayer.push (some [])
        = [PushEvent.write [97, 98, 99], PushEvent.closeStdin] :=
  ⟨fun b bs => rfl, rfl, rfl, rfl⟩

/-- C7: the code contradicts the claim. The str branch of play_raw_async
evaluates the unbound name `filename` (the parameter is
filename_or_bytes), so playing a raw file by path raises NameError
instead of spawning a player naming that file; play_raw likewise passes
the unbound `filename` to play_raw_async, so it raises NameError for
every input, a byte buffer included. Only the bytes branch of
play_raw_async behaves as specified. -/
theorem play_raw_unbound_filename :
    play_raw_async (some AudioFormat.CD) (PySource.path "sound.raw")
        = .error (.nameError "filename")
    ∧ play_raw (some AudioFormat.CD) (PySource.byteData [1, 2, 3])
        = .error (.nameError "filename")
    ∧ play_raw (some AudioFormat.CD) (PySource.path "sound.raw")
        = .error (.nameError "filename")
    ∧ play_raw_async (some AudioFormat.CD) (PySource.byteData [1, 2, 3])
        = .ok ⟨["aplay", "-q", "-t", "raw", "-D", "default"]
                ++ formatFlags AudioFormat.CD ++ [], true, [[1, 2, 3]]⟩ :=
  ⟨rfl, rfl, rfl, rfl⟩

/-- C8: the code contradicts the claim. Both FilePlayer entry points lack
the self parameter, so a bound call shifts every argument: play_raw reads
the format flags off the FilePlayer instance and raises AttributeError;
play_wav builds its command but then hits the unbound name `self` and
raises NameError. Neither entry point ever reaches popen, spawns a
process, or signals started. -/
theorem filePlayer_bound_calls_raise :
    (∀ (f : AudioFormat) (name : String),
      FilePlayer.play_raw PyVal.playerVal (PyVal.fmtVal f) (PyVal.strVal name)
        = .error (.attributeError "num_channels"))
    ∧ (∀ name : String,
      FilePlayer.play_wav PyVal.playerVal (PyVal.strVal name)
        = .error (.nameError "self")) :=
  ⟨fun f name => rfl, fun name => rfl⟩

/-- C10: the done flag is sticky — done() sets it, record() and join()
never clear it — so a record() call that observes the set flag still
spawns the capture process, signals started, invokes on_start and on_stop
when provided and closes the file when given, but yields no chunk at
all. -/
theorem done_sticky_record_yields_nothing :
    (∀ r : Recorder, (Recorder.done r).doneFlag = true)
    ∧ (∀ r : Recorder, (Recorder.recordState r).doneFlag = r.doneFlag)
    ∧ (∀ (fmt : AudioFormat) (dur : ℚ) (device : String) (nc : Option Nat)
        (s : List Nat) (hasOnStart hasOnStop hasFile : Bool) (tr : List RecEvent),
        tr = recordTrace fmt dur device (fun _ => true) nc s
              hasOnStart hasOnStop hasFile none →
        (∀ dt, RecEvent.yieldChunk dt ∉ tr)
        ∧ (∃ c, RecEvent.spawn c ∈ tr)
        ∧ RecEvent.started ∈ tr
        ∧ (hasOnStart = true → RecEvent.onStart ∈ tr)
        ∧ (hasOnStop = true → RecEvent.onStop ∈ tr)
        ∧ (hasFile = true → RecEvent.closeFile ∈ tr)) := by
  refine ⟨fun r => rfl, fun r => rfl, ?_⟩
  intro fmt dur device nc s hasOnStart hasOnStop hasFile tr htr
  subst htr
  have harec : arecord (some fmt) "raw" none device
      = .ok (["arecord", "-q", "-t", "raw", "-D", device] ++ formatFlags fmt
              ++ filenameArg none) := rfl
  refine ⟨?_, ?_, ?_, ?_, ?_, ?_⟩
  · intro dt
    cases hasOnStart <;> cases hasOnStop <;> cases hasFile <;>
      simp [recordTrace, recordLoop_const_true, consumed, loopEvents]
  · refine ⟨["arecord", "-q", "-t", "raw", "-D", device] ++ formatFlags fmt
        ++ filenameArg none, ?_⟩
    simp [recordTrace, harec]
  · simp [recordTrace]
  · intro h
    subst h
    simp [recordTrace]
  · intro h
    subst h
    simp [recordTrace]
  · intro h
    subst h
    simp [recordTrace]

/-- C10 witness: on a concrete recorder whose done flag is set, record
with on_start, on_stop and a file still invokes on_stop, and yields no
chunk. -/
theorem done_sticky_record_yields_nothing_witness :
    RecEvent.onStop ∈ recordTrace ⟨16000, 1, 2⟩ (1 / 10) "default"
        (fun _ => true) none [1, 2, 3] true true true none
    ∧ (∀ dt, RecEvent.yieldChunk dt ∉ recordTrace ⟨16000, 1, 2⟩ (1 / 10) "default"
        (fun _ => true) none [1, 2, 3] true true true none) :=
  ⟨(done_sticky_record_yields_nothing.2.2 ⟨16000, 1, 2⟩ (1 / 10) "default" none
      [1, 2, 3] true true true _ rfl).2.2.2.2.1 rfl,
   (done_sticky_record_yields_nothing.2.2 ⟨16000, 1, 2⟩ (1 / 10) "default" none
      [1, 2, 3] true true true _ rfl).1⟩
